import Mathlib

/-!
Shallow embedding of the `mycloud` program (src/main.go): a cloud-provider
detector with six probes (AWS, GCE, Azure, OpenStack, Digital Ocean, Joyent),
a concurrent detection phase joined before a registry-order scan, and an
optional metadata-key fetch on the winning probe.

External effects (HTTP, filesystem stat, command execution) are modelled by a
`World` record of response functions; each Go struct becomes a Lean structure,
each method a function threading the receiver explicitly.  Go runtime panics
(nil-pointer dereference) are modelled as `Option.none` results.
-/

/-- Response observed by the HTTP client: status code, status text (Go
`resp.Status`, e.g. "404 Not Found"), response headers and body. -/
structure HttpResponse where
  status : Nat
  statusText : String
  headers : List (String × String)
  body : String
deriving DecidableEq

/-- Go `resp.Header.Get(k)`: first header value for the key, "" when absent
(canonicalisation of header names is not modelled; keys are used verbatim). -/
def HttpResponse.headerGet (r : HttpResponse) (k : String) : String :=
  match r.headers.find? (fun p => p.1 == k) with
  | some p => p.2
  | none => ""

/-- Outcome of `client.Do`: either a network-level error (connection refused,
DNS failure, timeout) with its message, or a response together with an
optional error from reading the body (`ioutil.ReadAll`). -/
inductive HttpResult where
  | netErr (msg : String)
  | resp (r : HttpResponse) (readErr : Option String)
deriving DecidableEq

/-- The external world a single run observes: what each HTTP GET (url,
request headers) returns, which files exist (`os.Stat` succeeding), and what
each command invocation (path, single argument) produces (`exec.Command(cmd,
key).Output()`: stdout on success, error message on failure). -/
structure World where
  http : String → List (String × String) → HttpResult
  fileExists : String → Bool
  cmdRun : String → String → Except String String

/-- Result triple of Go `getUrl`: body pointer, response pointer, error. -/
structure GetUrlResult where
  body : Option String
  resp : Option HttpResponse
  err : Option String
deriving DecidableEq

/-- Go `getUrl(url, headers)` (src/main.go:31-54): perform the GET; a network
error yields (nil, resp, err); a non-200 status yields an error built from the
status text; a body-read error yields (nil, resp, err); otherwise the body is
returned with a nil error. -/
def getUrl (w : World) (url : String) (headers : List (String × String)) :
    GetUrlResult :=
  match w.http url headers with
  | .netErr msg => ⟨none, none, some msg⟩
  | .resp r readErr =>
    if r.status ≠ 200 then
      ⟨none, some r, some ("An error getting the url " ++ url ++ " : " ++ r.statusText)⟩
    else
      match readErr with
      | some m => ⟨none, some r, some m⟩
      | none => ⟨some r.body, some r, none⟩

/-- Go `BaseCloud` (src/main.go:59-63). -/
structure BaseCloud where
  name : String := ""
  isMyCloud : Bool := false
  supportsKey : Bool := false
deriving DecidableEq

/-- Value-or-error pair returned by every `getKey` method: (*string, error). -/
def KeyResult := Option String × Option String
deriving instance DecidableEq for KeyResult

/-- Go `BaseCloud.getKey` (src/main.go:77-79): the default always fails and
touches no external resource (it never reads the `World`). -/
def BaseCloud.getKey (_key : String) : KeyResult :=
  (none, some ("Cloud does not support keys"))

/-- Go `SimpleUrlBasedCloud` (src/main.go:85-90): embeds `BaseCloud`, adds the
two URLs and the cached metadata body pointer. -/
structure SimpleUrlBasedCloud extends BaseCloud where
  baseUrl : String := ""
  testUrl : String := ""
  metadata : Option String := none
deriving DecidableEq

/-- Go `SimpleUrlBasedCloud.detectEffectiveCloud` (src/main.go:92-96): GET the
test URL, cache the body pointer, presence is `err == nil`. -/
def SimpleUrlBasedCloud.detectEffectiveCloud (w : World)
    (c : SimpleUrlBasedCloud) : SimpleUrlBasedCloud :=
  let r := getUrl w c.testUrl []
  { c with metadata := r.body, isMyCloud := r.err.isNone }

/-- Go `SimpleUrlBasedCloud.getKey` (src/main.go:98-102): GET `baseUrl + key`
and return (body, err) verbatim. -/
def SimpleUrlBasedCloud.getKey (w : World) (c : SimpleUrlBasedCloud)
    (key : String) : KeyResult :=
  let r := getUrl w (c.baseUrl ++ key) []
  (r.body, r.err)

/-- Go `AWSCloud` (src/main.go:107-109). -/
structure AWSCloud extends SimpleUrlBasedCloud
deriving DecidableEq

/-- Go `NewAWSCloud` (src/main.go:111-118). -/
def NewAWSCloud : AWSCloud :=
  { baseUrl := "http://169.254.169.254/latest/meta-data/"
    testUrl := "http://169.254.169.254/latest/meta-data/instance-id"
    name := "AWS"
    supportsKey := true }

/-- Go `OpenStackCloud` (src/main.go:123-125). -/
structure OpenStackCloud extends SimpleUrlBasedCloud
deriving DecidableEq

/-- Go `NewOpenStackCloud` (src/main.go:127-133); note no `baseUrl` is set. -/
def NewOpenStackCloud : OpenStackCloud :=
  { testUrl := "http://169.254.169.254/openstack/2012-08-10/meta_data.json"
    supportsKey := true
    name := "OpenStack" }

/-- Go `DigitalOceanCloud` (src/main.go:151-153). -/
structure DigitalOceanCloud extends SimpleUrlBasedCloud
deriving DecidableEq

/-- Go `NewDigitalOceanCloud` (src/main.go:155-162). -/
def NewDigitalOceanCloud : DigitalOceanCloud :=
  { baseUrl := "http://169.254.169.254/metadata/v1/"
    testUrl := "http://169.254.169.254/metadata/v1/id"
    name := "Digital Ocean"
    supportsKey := true }

/-- Go `GCECloud` (src/main.go:167-169). -/
structure GCECloud extends BaseCloud
deriving DecidableEq

/-- Go `NewGCECloud` (src/main.go:171-176). -/
def NewGCECloud : GCECloud :=
  { supportsKey := true
    name := "GCE" }

/-- Test URL used by the GCE presence check (src/main.go:180). -/
def gceTestUrl : String := "http://metadata.google.internal/"

/-- Required request header of the GCE probe (src/main.go:181). -/
def gceHeaders : List (String × String) := [("Metadata-Flavor", "Google")]

/-- Go `GCECloud.detectEffectiveCloud` (src/main.go:178-189): set
`supportsKey`, GET with the required header; on error presence is false,
otherwise presence requires the response header `Metadata-Flavor: Google`.
The `(err = nil, resp = nil)` case would be a nil dereference in Go; it is
unreachable (see `getUrl`) and modelled as presence false. -/
def GCECloud.detectEffectiveCloud (w : World) (c : GCECloud) : GCECloud :=
  let c := { c with supportsKey := true }
  let r := getUrl w gceTestUrl gceHeaders
  match r.err, r.resp with
  | some _, _ => { c with isMyCloud := false }
  | none, some resp =>
      { c with isMyCloud := resp.headerGet ("Metadata-Flavor") == "Google" }
  | none, none => { c with isMyCloud := false }

/-- Go `GCECloud.getKey` (src/main.go:191-196). -/
def GCECloud.getKey (w : World) (key : String) : KeyResult :=
  let r := getUrl w ("http://metadata.google.internal/computeMetadata/v1/" ++ key)
    gceHeaders
  (r.body, r.err)

/-- Go `AzureCloud` (src/main.go:201-203). -/
structure AzureCloud extends BaseCloud
deriving DecidableEq

/-- Filesystem marker checked by the Azure probe (src/main.go:209). -/
def azureMarkerPath : String := "/var/lib/waagent/ovf-env.xml"

/-- Go `AzureCloud.detectEffectiveCloud` (src/main.go:205-212): sets
`supportsKey = true` unconditionally, then presence is the existence of the
marker file. -/
def AzureCloud.detectEffectiveCloud (w : World) (c : AzureCloud) : AzureCloud :=
  { c with supportsKey := true, isMyCloud := w.fileExists azureMarkerPath }

/-- Go `JoyentCloud` (src/main.go:217-219). -/
structure JoyentCloud extends BaseCloud
deriving DecidableEq

/-- Go `NewJoyentCloud` (src/main.go:221-226). -/
def NewJoyentCloud : JoyentCloud :=
  { supportsKey := true
    name := "Joyent" }

/-- Command checked and run by the Joyent probe (src/main.go:232,238). -/
def joyentCmdPath : String := "/usr/sbin/mdata-get"

/-- Go `JoyentCloud.detectEffectiveCloud` (src/main.go:228-235). -/
def JoyentCloud.detectEffectiveCloud (w : World) (c : JoyentCloud) :
    JoyentCloud :=
  { c with supportsKey := true, isMyCloud := w.fileExists joyentCmdPath }

/-- Go `JoyentCloud.getKey` (src/main.go:237-245): run the command with the
key as sole argument; stdout on success, the error otherwise. -/
def JoyentCloud.getKey (w : World) (key : String) : KeyResult :=
  match w.cmdRun joyentCmdPath key with
  | .error e => (none, some e)
  | .ok out => (some out, none)

/-- Whitespace skipping for the JSON decoder model. -/
def skipWs : List Char → List Char
  | c :: cs =>
    if c = ' ' ∨ c = '\t' ∨ c = '\n' ∨ c = '\r' then skipWs cs else c :: cs
  | [] => []

/-- JSON string escape sequences (the `\uXXXX` form is not modelled; inputs
using it fail to decode). -/
def jsonEsc (c : Char) : Option Char :=
  if c = '"' then some '"'
  else if c = '\\' then some '\\'
  else if c = '/' then some '/'
  else if c = 'n' then some '\n'
  else if c = 't' then some '\t'
  else if c = 'r' then some '\r'
  else if c = 'b' then some (Char.ofNat 8)
  else if c = 'f' then some (Char.ofNat 12)
  else none

/-- Decode a JSON string body after its opening quote; returns the decoded
string and the remaining input after the closing quote. -/
def jsonStringBody : List Char → Option (String × List Char)
  | [] => none
  | '"' :: cs => some ("", cs)
  | '\\' :: [] => none
  | '\\' :: e :: cs => do
    let ec ← jsonEsc e
    let (s, rest) ← jsonStringBody cs
    some (ec.toString ++ s, rest)
  | c :: cs => do
    let (s, rest) ← jsonStringBody cs
    some (c.toString ++ s, rest)

/-- Decode one `"key" : "value"` member of a flat JSON object. -/
def jsonPair (l : List Char) : Option ((String × String) × List Char) :=
  match skipWs l with
  | '"' :: cs => do
    let (k, r1) ← jsonStringBody cs
    match skipWs r1 with
    | ':' :: r2 =>
      match skipWs r2 with
      | '"' :: r3 => do
        let (v, r4) ← jsonStringBody r3
        some ((k, v), r4)
      | _ => none
    | _ => none
  | _ => none

/-- Decode the members of a flat JSON object after its opening brace, up to
and including the closing brace; fuelled recursion (fuel bounds the number of
members). -/
def jsonMembers : Nat → List Char → Option (List (String × String) × List Char)
  | 0, _ => none
  | fuel + 1, l => do
    let (kv, r) ← jsonPair l
    match skipWs r with
    | ',' :: r2 => do
      let (rest, r3) ← jsonMembers fuel r2
      some (kv :: rest, r3)
    | '\x7d' :: r2 => some ([kv], r2)
    | _ => none

/-- Model of Go `json.Decoder.Decode` into a `map[string]string`
(src/main.go:137-140), restricted to flat string-to-string objects: returns
the member list on success, `none` on any decode failure (non-object input,
non-string values, malformed syntax).  Trailing input after the object is
ignored, as `Decode` reads a single value. -/
def parseFlatJson (s : String) : Option (List (String × String)) :=
  match skipWs s.toList with
  | '\x7b' :: cs =>
    match skipWs cs with
    | '\x7d' :: _ => some []
    | _ => (jsonMembers (cs.length + 1) cs).map (fun x => x.1)
  | _ => none

/-- Go map indexing `m[key]` on the decoded JSON object: the last binding for
the key (later duplicate keys overwrite earlier ones during decoding), or the
zero value "" when the key is absent. -/
def mapGet (m : List (String × String)) (k : String) : String :=
  m.foldl (fun acc p => if p.1 == k then p.2 else acc) ""

/-- Go `OpenStackCloud.getKey` (src/main.go:135-146): dereference the cached
metadata pointer (`none` result models the Go nil-pointer panic when the
pointer is nil), decode it as a flat JSON object — a decode error leaves the
map nil, hence every lookup yields "" — and fail with "No such key" when the
looked-up value is the zero value "". -/
def OpenStackCloud.getKey (c : OpenStackCloud) (key : String) :
    Option KeyResult :=
  match c.metadata with
  | none => none
  | some body =>
    let m := (parseFlatJson body).getD []
    let v := mapGet m key
    if v = "" then some ((none, some ("No such key " ++ key)))
    else some ((some v, none))

/-- Closed sum of the six concrete probe types stored in the registry; stands
for Go's `CloudDetector` interface values (src/main.go:254-260). -/
inductive Cloud where
  | aws : AWSCloud → Cloud
  | gce : GCECloud → Cloud
  | azure : AzureCloud → Cloud
  | openstack : OpenStackCloud → Cloud
  | digitalOcean : DigitalOceanCloud → Cloud
  | joyent : JoyentCloud → Cloud
deriving DecidableEq

/-- Embedded `BaseCloud` of any probe. -/
def Cloud.base : Cloud → BaseCloud
  | .aws c => c.toBaseCloud
  | .gce c => c.toBaseCloud
  | .azure c => c.toBaseCloud
  | .openstack c => c.toBaseCloud
  | .digitalOcean c => c.toBaseCloud
  | .joyent c => c.toBaseCloud

/-- Go `BaseCloud.cloudDescription` (src/main.go:65-67), promoted to every
probe. -/
def Cloud.cloudDescription (c : Cloud) : String := c.base.name

/-- Go `BaseCloud.isEffectiveCloud` (src/main.go:69-71), promoted to every
probe. -/
def Cloud.isEffectiveCloud (c : Cloud) : Bool := c.base.isMyCloud

/-- Go `BaseCloud.supportsKeys` (src/main.go:73-75), promoted to every
probe. -/
def Cloud.supportsKeys (c : Cloud) : Bool := c.base.supportsKey

/-- Dynamic dispatch of `detectEffectiveCloud`: AWS, OpenStack and Digital
Ocean inherit `SimpleUrlBasedCloud.detectEffectiveCloud`; GCE, Azure and
Joyent override it (Go method-set resolution through embedding). -/
def Cloud.detect (w : World) : Cloud → Cloud
  | .aws c => .aws ⟨SimpleUrlBasedCloud.detectEffectiveCloud w c.toSimpleUrlBasedCloud⟩
  | .gce c => .gce (GCECloud.detectEffectiveCloud w c)
  | .azure c => .azure (AzureCloud.detectEffectiveCloud w c)
  | .openstack c => .openstack ⟨SimpleUrlBasedCloud.detectEffectiveCloud w c.toSimpleUrlBasedCloud⟩
  | .digitalOcean c => .digitalOcean ⟨SimpleUrlBasedCloud.detectEffectiveCloud w c.toSimpleUrlBasedCloud⟩
  | .joyent c => .joyent (JoyentCloud.detectEffectiveCloud w c)

/-- Dynamic dispatch of `getKey`: only OpenStack overrides it with a method
that can panic (outer `none`); Azure has no override and falls back to
`BaseCloud.getKey`. -/
def Cloud.getKey (w : World) (key : String) : Cloud → Option KeyResult
  | .aws c => some (SimpleUrlBasedCloud.getKey w c.toSimpleUrlBasedCloud key)
  | .gce _ => some (GCECloud.getKey w key)
  | .azure _ => some (BaseCloud.getKey key)
  | .openstack c => OpenStackCloud.getKey c key
  | .digitalOcean c => some (SimpleUrlBasedCloud.getKey w c.toSimpleUrlBasedCloud key)
  | .joyent _ => some (JoyentCloud.getKey w key)

/-- Go `setupClouds` (src/main.go:262-277): the registry, in declaration
order.  Azure is built literally as `AzureCloud{BaseCloud{name: "Azure"}}`,
so its `supportsKey` starts out false. -/
def setupClouds : List Cloud :=
  [ .aws NewAWSCloud,
    .gce NewGCECloud,
    .azure ⟨{ name := "Azure" }⟩,
    .openstack NewOpenStackCloud,
    .digitalOcean NewDigitalOceanCloud,
    .joyent NewJoyentCloud ]

/-- One scheduling step of the concurrent detection phase: the goroutine of
the probe at index `i` runs its whole `detectEffectiveCloud` and writes back
into its own slot (src/main.go:249-252, 324-327).  Out-of-range indices leave
the list unchanged. -/
def detectAt (w : World) (l : List Cloud) (i : Nat) : List Cloud :=
  match l[i]? with
  | some c => l.set i (Cloud.detect w c)
  | none => l

/-- The detection phase under an explicit goroutine completion order `sched`:
tasks run one slot at a time in the order the scheduler finishes them.
Because the probes share no mutable state, any interleaving of the six tasks
is equivalent to some such sequential order. -/
def runSched (w : World) (sched : List Nat) (l : List Cloud) : List Cloud :=
  sched.foldl (detectAt w) l

/-- Exit code and stdout lines of one program run. -/
structure ProgResult where
  stdout : List String
  exitCode : Nat
deriving DecidableEq

/-- Go `main` after the `wg.Wait()` join (src/main.go:330-351): scan the
detected registry in order for the first effective cloud; print its name; if
a non-empty key was requested, fetch it, printing the value (exit 0) or
"UNKNOWN" (exit 1); with no effective cloud print "UNKNOWN" and exit 1.
`none` models a Go runtime panic (nil dereference inside `getKey` or of the
returned value pointer). -/
def mainAfterJoin (w : World) (key : String) (detected : List Cloud) :
    Option ProgResult :=
  match detected.find? Cloud.isEffectiveCloud with
  | none => some ⟨["UNKNOWN"], 1⟩
  | some cd =>
    if key ≠ "" then
      match cd.getKey w key with
      | none => none
      | some (_, some _) => some ⟨[cd.cloudDescription, "UNKNOWN"], 1⟩
      | some (some v, none) => some ⟨[cd.cloudDescription, v], 0⟩
      | some (none, none) => none
    else
      some ⟨[cd.cloudDescription], 0⟩

/-- The whole program for a given world and `--key` value: run every probe's
detection (the join makes the result independent of completion order, proved
separately), then resolve and print. -/
def mainRun (w : World) (key : String) : Option ProgResult :=
  mainAfterJoin w key (setupClouds.map (Cloud.detect w))

/-- Spec-side description of an invocation with no key flag: print the first
detected provider's name and exit 0, or print UNKNOWN and exit 1; no key
fetch happens for any detection outcome. -/
def detectOnlyRun (w : World) : ProgResult :=
  match (setupClouds.map (Cloud.detect w)).find? Cloud.isEffectiveCloud with
  | some cd => ⟨[cd.cloudDescription], 0⟩
  | none => ⟨["UNKNOWN"], 1⟩

/-- World in which every external resource fails: no network, no files, no
commands. -/
def wNone : World :=
  { http := fun _ _ => .netErr ("no route to host"),
    fileExists := fun _ => false,
    cmdRun := fun _ _ => .error ("exec: file not found") }

/-- Plain 200 response with the given body and no headers. -/
def okResp (body : String) : HttpResult :=
  HttpResult.resp ⟨200, "200 OK", [], body⟩ none

/-- World in which only the AWS presence endpoint answers. -/
def wAws : World :=
  { http := fun url _ =>
      if url = "http://169.254.169.254/latest/meta-data/instance-id" then
        okResp ("i-12345")
      else .netErr ("no route to host"),
    fileExists := fun _ => false,
    cmdRun := fun _ _ => .error ("exec: file not found") }

/-- World in which AWS is present and its `ami-id` key endpoint answers. -/
def wAwsKey : World :=
  { http := fun url _ =>
      if url = "http://169.254.169.254/latest/meta-data/instance-id" then
        okResp ("i-12345")
      else if url = "http://169.254.169.254/latest/meta-data/ami-id" then
        okResp ("ami-deadbeef")
      else .netErr ("no route to host"),
    fileExists := fun _ => false,
    cmdRun := fun _ _ => .error ("exec: file not found") }

/-- World in which AWS is present but every key endpoint answers 404. -/
def wAwsKeyFail : World :=
  { http := fun url _ =>
      if url = "http://169.254.169.254/latest/meta-data/instance-id" then
        okResp ("i-12345")
      else HttpResult.resp ⟨404, "404 Not Found", [], ""⟩ none,
    fileExists := fun _ => false,
    cmdRun := fun _ _ => .error ("exec: file not found") }

/-- World in which only the Azure marker file exists. -/
def wAzure : World :=
  { http := fun _ _ => .netErr ("no route to host"),
    fileExists := fun p => p = azureMarkerPath,
    cmdRun := fun _ _ => .error ("exec: file not found") }

/-- The error of `getUrl` is nil exactly when the request produced a response
with status 200 whose body was read without error. -/
theorem getUrl_err_none_iff (w : World) (url : String)
    (hdrs : List (String × String)) :
    (getUrl w url hdrs).err = none
      ↔ ∃ r, w.http url hdrs = HttpResult.resp r none ∧ r.status = 200 := by
  unfold getUrl
  cases h : w.http url hdrs with
  | netErr m => simp
  | resp r readErr =>
    by_cases h200 : r.status = 200
    · cases readErr with
      | none => simp [h200]
      | some m => simp [h200]
    · simp [h200]

/-- The body pointer of `getUrl` is non-nil exactly when its error is nil. -/
theorem getUrl_body_isSome (w : World) (url : String)
    (hdrs : List (String × String)) :
    (getUrl w url hdrs).body.isSome = (getUrl w url hdrs).err.isNone := by
  unfold getUrl
  cases h : w.http url hdrs with
  | netErr m => rfl
  | resp r readErr =>
    by_cases h200 : r.status = 200
    · cases readErr with
      | none => simp [h200]
      | some m => simp [h200]
    · simp [h200]

/-- Running a probe's detection twice against the same world gives the same
state as running it once: detection writes only from the world and from
fields it never modifies. -/
theorem Cloud.detect_idem (w : World) (c : Cloud) :
    Cloud.detect w (Cloud.detect w c) = Cloud.detect w c := by
  cases c with
  | gce g =>
    simp only [Cloud.detect]
    unfold GCECloud.detectEffectiveCloud
    generalize getUrl w gceTestUrl gceHeaders = r
    obtain ⟨b, rs, e⟩ := r
    cases e <;> cases rs <;> rfl
  | aws c => rfl
  | azure c => rfl
  | openstack c => rfl
  | digitalOcean c => rfl
  | joyent c => rfl

/-- One scheduling step preserves the registry length. -/
theorem detectAt_length (w : World) (l : List Cloud) (i : Nat) :
    (detectAt w l i).length = l.length := by
  unfold detectAt
  cases h : l[i]? <;> simp

/-- A scheduling step of task `j` does not touch slot `i` for `i ≠ j`. -/
theorem detectAt_getElem_ne (w : World) (l : List Cloud) {i j : Nat}
    (hij : i ≠ j) : (detectAt w l j)[i]? = l[i]? := by
  unfold detectAt
  cases h : l[j]? with
  | none => rfl
  | some c => exact List.getElem?_set_ne (fun hji => hij hji.symm)

/-- A scheduling step of task `i` writes the detected probe into slot `i`. -/
theorem detectAt_getElem_eq (w : World) {l : List Cloud} {i : Nat} {c : Cloud}
    (h : l[i]? = some c) :
    (detectAt w l i)[i]? = some (Cloud.detect w c) := by
  unfold detectAt
  rw [h]
  exact List.getElem?_set_eq_of_lt _ (List.getElem?_eq_some_iff.mp h).1

/-- Slot `i` of the detection phase under any completion order holds the
detected probe when task `i` was scheduled, and the original probe
otherwise. -/
theorem runSched_getElem (w : World) :
    ∀ (sched : List Nat) (l : List Cloud) (i : Nat) (c : Cloud),
      l[i]? = some c →
      (runSched w sched l)[i]? =
        some (if i ∈ sched then Cloud.detect w c else c)
  | [], l, i, c, h => by simpa [runSched] using h
  | j :: rest, l, i, c, h => by
    show (runSched w rest (detectAt w l j))[i]? = _
    by_cases hij : i = j
    · subst hij
      have h2 : (detectAt w l i)[i]? = some (Cloud.detect w c) :=
        detectAt_getElem_eq w h
      rw [runSched_getElem w rest (detectAt w l i) i (Cloud.detect w c) h2]
      by_cases hr : i ∈ rest
      · simp [hr, Cloud.detect_idem]
      · simp [hr]
    · have h2 : (detectAt w l j)[i]? = some c := by
        rw [detectAt_getElem_ne w l hij]; exact h
      rw [runSched_getElem w rest (detectAt w l j) i c h2]
      simp [List.mem_cons, hij]

/-- The detection phase preserves the registry length under any completion
order. -/
theorem runSched_length (w : World) :
    ∀ (sched : List Nat) (l : List Cloud),
      (runSched w sched l).length = l.length
  | [], _ => rfl
  | j :: rest, l => by
    show (runSched w rest (detectAt w l j)).length = _
    rw [runSched_length w rest (detectAt w l j), detectAt_length]

/-- When every registry index is scheduled, the detection phase computes
exactly the pointwise detection of the registry, whatever the completion
order was. -/
theorem runSched_eq_map (w : World) (sched : List Nat) (l : List Cloud)
    (cov : ∀ i, i < l.length → i ∈ sched) :
    runSched w sched l = l.map (Cloud.detect w) := by
  apply List.ext_getElem?
  intro i
  cases h : l[i]? with
  | none =>
    have hge : l.length ≤ i := by
      by_contra hlt
      push_neg at hlt
      exact absurd h (by simp [List.getElem?_eq_getElem hlt])
    rw [List.getElem?_eq_none (by simpa [runSched_length] using hge),
      List.getElem?_eq_none (by simpa using hge)]
  | some c =>
    have hi : i < l.length := (List.getElem?_eq_some_iff.mp h).1
    rw [runSched_getElem w sched l i c h]
    simp [cov i hi, List.getElem?_map, h]

/-- C1: after every detection task has completed (every registry index was
scheduled, in whatever completion order), the detection phase equals the
pointwise detection of the registry in order AWS, GCE, Azure, OpenStack,
Digital Ocean, Joyent; the winner — the first probe whose presence flag is
true, selected by the registry-order scan — is therefore identical for any
two completion orders: it depends only on the final presence values and the
registry order. -/
theorem claim_C1_winner_schedule_independent (w : World) (s1 s2 : List Nat)
    (h1 : ∀ i, i < setupClouds.length → i ∈ s1)
    (h2 : ∀ i, i < setupClouds.length → i ∈ s2) :
    runSched w s1 setupClouds = setupClouds.map (Cloud.detect w)
    ∧ runSched w s2 setupClouds = setupClouds.map (Cloud.detect w)
    ∧ (runSched w s1 setupClouds).find? Cloud.isEffectiveCloud
        = (runSched w s2 setupClouds).find? Cloud.isEffectiveCloud
    ∧ setupClouds.map Cloud.cloudDescription
        = ["AWS", "GCE", "Azure", "OpenStack", "Digital Ocean", "Joyent"] := by
  have e1 := runSched_eq_map w s1 setupClouds h1
  have e2 := runSched_eq_map w s2 setupClouds h2
  exact ⟨e1, e2, by rw [e1, e2], by decide⟩

/-- Witness for C1: in the all-fail world, running the six detection tasks in
registry order and in reversed completion order yields the same winner
selection. -/
theorem claim_C1_witness :
    (runSched wNone [0, 1, 2, 3, 4, 5] setupClouds).find? Cloud.isEffectiveCloud
      = (runSched wNone [5, 4, 3, 2, 1, 0] setupClouds).find? Cloud.isEffectiveCloud :=
  (claim_C1_winner_schedule_independent wNone [0, 1, 2, 3, 4, 5] [5, 4, 3, 2, 1, 0]
    (by decide) (by decide)).2.2.1

/-- C2: for every world in which, after the detection join, no probe reports
presence, the program prints exactly the line UNKNOWN and exits 1; and when
the registry scan finds a present probe and no key is requested, the program
prints that probe's display name and exits 0. -/
theorem claim_C2_unknown_and_name (w : World) :
    ((∀ cd ∈ setupClouds.map (Cloud.detect w), cd.isEffectiveCloud = false) →
      mainRun w "" = some ⟨["UNKNOWN"], 1⟩)
    ∧ (∀ cd,
        (setupClouds.map (Cloud.detect w)).find? Cloud.isEffectiveCloud = some cd →
        mainRun w "" = some ⟨[cd.cloudDescription], 0⟩) := by
  constructor
  · intro hall
    have hnone : (setupClouds.map (Cloud.detect w)).find? Cloud.isEffectiveCloud = none := by
      rw [List.find?_eq_none]
      intro x hx
      simp [hall x hx]
    simp [mainRun, mainAfterJoin, hnone]
  · intro cd hcd
    simp [mainRun, mainAfterJoin, hcd]

/-- Witness for C2: in the all-fail world the output is the single line
UNKNOWN with exit code 1; in the AWS-only world the output is the single line
AWS with exit code 0. -/
theorem claim_C2_witness :
    mainRun wNone "" = some ⟨["UNKNOWN"], 1⟩
    ∧ mainRun wAws "" = some ⟨["AWS"], 0⟩ :=
  ⟨(claim_C2_unknown_and_name wNone).1 (by decide),
   ((claim_C2_unknown_and_name wAws).2
      (Cloud.detect wAws (Cloud.aws NewAWSCloud)) (by decide)).trans (by decide)⟩

/-- C10: when the requested key is the empty string (the flag's default), the
program performs no key fetch for any detection outcome: it behaves exactly
as the key-less invocation, printing only the winning provider's name with
exit 0 or UNKNOWN with exit 1. -/
theorem claim_C10_empty_key_no_fetch (w : World) :
    mainRun w "" = some (detectOnlyRun w) := by
  unfold mainRun mainAfterJoin detectOnlyRun
  cases h : (setupClouds.map (Cloud.detect w)).find? Cloud.isEffectiveCloud <;> simp

/-- C3: when a non-empty key is requested and a provider was detected (the
registry scan finds a present probe), the program first prints that
provider's name; when the winning probe's getKey succeeds it then prints the
fetched value and exits 0, and when getKey fails for any reason it instead
prints UNKNOWN as the second line and exits 1, so a key-fetch failure yields
a failing exit code even though the provider name was already printed. -/
theorem claim_C3_key_fetch_outcomes (w : World) (key : String)
    (hk : key ≠ "") (cd : Cloud)
    (hw : (setupClouds.map (Cloud.detect w)).find? Cloud.isEffectiveCloud = some cd) :
    (∀ v, cd.getKey w key = some (some v, none) →
      mainRun w key = some ⟨[cd.cloudDescription, v], 0⟩)
    ∧ (∀ res e, cd.getKey w key = some (res, some e) →
      mainRun w key = some ⟨[cd.cloudDescription, "UNKNOWN"], 1⟩) := by
  constructor
  · intro v hv
    simp [mainRun, mainAfterJoin, hw, hk, hv]
  · intro res e he
    simp [mainRun, mainAfterJoin, hw, hk, he]

/-- Witness for C3: with AWS detected, fetching `ami-id` against a 200
endpoint prints AWS then the value and exits 0, while fetching `bogus`
against a 404 endpoint prints AWS then UNKNOWN and exits 1. -/
theorem claim_C3_witness :
    mainRun wAwsKey "ami-id" = some ⟨["AWS", "ami-deadbeef"], 0⟩
    ∧ mainRun wAwsKeyFail "bogus" = some ⟨["AWS", "UNKNOWN"], 1⟩ :=
  ⟨((claim_C3_key_fetch_outcomes wAwsKey "ami-id" (by decide)
      (Cloud.detect wAwsKey (Cloud.aws NewAWSCloud)) (by decide)).1
      "ami-deadbeef" (by decide)).trans (by decide),
   ((claim_C3_key_fetch_outcomes wAwsKeyFail "bogus" (by decide)
      (Cloud.detect wAwsKeyFail (Cloud.aws NewAWSCloud)) (by decide)).2
      none ("An error getting the url http://169.254.169.254/latest/meta-data/bogus : 404 Not Found")
      (by decide)).trans (by decide)⟩

/-- C4: the GCE probe's presence flag ends up true exactly when the HTTP GET
to its metadata URL succeeded (a 200 response whose body was read without
error) and the response carried the header Metadata-Flavor with value Google;
in particular every 200 response without that header value leaves the GCE
probe's presence flag false. -/
theorem claim_C4_gce_header_verified (w : World) (c : GCECloud) :
    (GCECloud.detectEffectiveCloud w c).isMyCloud = true
      ↔ ∃ r, w.http gceTestUrl gceHeaders = HttpResult.resp r none
          ∧ r.status = 200 ∧ r.headerGet ("Metadata-Flavor") = "Google" := by
  unfold GCECloud.detectEffectiveCloud getUrl
  cases h : w.http gceTestUrl gceHeaders with
  | netErr m => simp
  | resp r readErr =>
    by_cases h200 : r.status = 200
    · cases readErr with
      | none => simp [h200]
      | some m => simp [h200]
    · constructor
      · intro hmy
        exfalso
        simp [h200] at hmy
      · rintro ⟨r', heq, h200', _⟩
        cases heq
        exact absurd h200' h200

/-- Lookup in the decoded map yields the zero value when no member carries
the key. -/
theorem mapGet_of_no_key (k : String) :
    ∀ (m : List (String × String)), (∀ p ∈ m, p.1 ≠ k) → mapGet m k = "" := by
  have gen : ∀ (m : List (String × String)) (acc : String),
      (∀ p ∈ m, p.1 ≠ k) → m.foldl (fun acc p => if p.1 == k then p.2 else acc) acc = acc := by
    intro m
    induction m with
    | nil => intro acc _; rfl
    | cons p rest ih =>
      intro acc hall
      have hp : p.1 ≠ k := hall p (by simp)
      show List.foldl _ (if p.1 == k then p.2 else acc) rest = acc
      rw [if_neg (by simpa using hp)]
      exact ih acc (fun q hq => hall q (by simp [hq]))
  intro m h
  exact gen m "" h

/-- C5: the OpenStack probe's getKey parses the metadata body cached at
detection time as a flat string-to-string JSON object and returns the value
of the requested field; for every requested key absent from that object, and
for every key whose value decodes to the empty string, it returns a
"No such key" failure. -/
theorem claim_C5_openstack_key_lookup (c : OpenStackCloud) (key body : String)
    (h : c.metadata = some body) :
    ((∀ p ∈ (parseFlatJson body).getD [], p.1 ≠ key) →
      OpenStackCloud.getKey c key = some (none, some ("No such key " ++ key)))
    ∧ (mapGet ((parseFlatJson body).getD []) key = "" →
      OpenStackCloud.getKey c key = some (none, some ("No such key " ++ key)))
    ∧ (∀ v, mapGet ((parseFlatJson body).getD []) key = v → v ≠ "" →
      OpenStackCloud.getKey c key = some (some v, none)) := by
  refine ⟨fun habs => ?_, fun hempty => ?_, fun v hv hne => ?_⟩
  · have := mapGet_of_no_key key ((parseFlatJson body).getD []) habs
    simp [OpenStackCloud.getKey, h, this]
  · simp [OpenStackCloud.getKey, h, hempty]
  · simp [OpenStackCloud.getKey, h, hv, hne]

/-- Witness for C5: with the cached metadata body from the specification's
example, the key key1 yields value1 and the key missing yields the
"No such key" failure. -/
theorem claim_C5_witness :
    OpenStackCloud.getKey
        ⟨{ NewOpenStackCloud.toSimpleUrlBasedCloud with
            metadata := some ("\x7b\"id\":\"abc\",\"key1\":\"value1\"\x7d") }⟩
        "key1"
      = some (some ("value1"), none)
    ∧ OpenStackCloud.getKey
        ⟨{ NewOpenStackCloud.toSimpleUrlBasedCloud with
            metadata := some ("\x7b\"id\":\"abc\",\"key1\":\"value1\"\x7d") }⟩
        "missing"
      = some (none, some ("No such key missing")) :=
  ⟨(claim_C5_openstack_key_lookup _ "key1" _ rfl).2.2 "value1" (by decide) (by decide),
   ((claim_C5_openstack_key_lookup _ "missing" _ rfl).1 (by decide)).trans (by decide)⟩

/-- C6 counterexample: the Azure probe, exactly as it sits in the registry,
reports supportsKeys false before the detection cycle and true after running
its detect in a concrete world — the claim that every probe's detect leaves
its supportsKey field unchanged is false. -/
theorem claim_C6_counterexample :
    Cloud.azure ⟨{ name := "Azure" }⟩ ∈ setupClouds
    ∧ Cloud.supportsKeys (Cloud.azure ⟨{ name := "Azure" }⟩) = false
    ∧ Cloud.supportsKeys (Cloud.detect wNone (Cloud.azure ⟨{ name := "Azure" }⟩)) = true := by
  decide

/-- C6 amended: every probe's detect leaves its display name unchanged; the
URL-based probes (AWS, OpenStack, Digital Ocean) also leave supportsKey
unchanged, while GCE, Azure and Joyent unconditionally set supportsKey to
true during detect — equal to the constructed value for GCE and Joyent, but a
false-to-true flip for the registry's Azure probe, which is constructed with
supportsKey false. -/
theorem claim_C6_amended (w : World) (c : Cloud) :
    (Cloud.detect w c).cloudDescription = c.cloudDescription
    ∧ (Cloud.detect w c).supportsKeys =
        (match c with
         | .aws _ => c.supportsKeys
         | .openstack _ => c.supportsKeys
         | .digitalOcean _ => c.supportsKeys
         | .gce _ => true
         | .azure _ => true
         | .joyent _ => true) := by
  cases c with
  | gce g =>
    refine ⟨?_, ?_⟩ <;>
      · simp only [Cloud.detect, GCECloud.detectEffectiveCloud,
          Cloud.cloudDescription, Cloud.supportsKeys, Cloud.base]
        generalize getUrl w gceTestUrl gceHeaders = r
        obtain ⟨b, rs, e⟩ := r
        cases e <;> cases rs <;> rfl
  | aws c => exact ⟨rfl, rfl⟩
  | azure c => exact ⟨rfl, rfl⟩
  | openstack c => exact ⟨rfl, rfl⟩
  | digitalOcean c => exact ⟨rfl, rfl⟩
  | joyent c => exact ⟨rfl, rfl⟩

/-- Joint failure condition: `getUrl` reports a nil error exactly on a
read-through 200 response (restated from `getUrl_err_none_iff` for reuse). -/
theorem getUrl_err_isSome_iff (w : World) (url : String)
    (hdrs : List (String × String)) :
    (getUrl w url hdrs).err.isSome
      ↔ ¬ ∃ r, w.http url hdrs = HttpResult.resp r none ∧ r.status = 200 := by
  rw [← getUrl_err_none_iff w url hdrs]
  cases (getUrl w url hdrs).err <;> simp

/-- C7: every transport failure during a probe's detect — network error or
timeout (`netErr`), non-200 status, body-read failure, absent marker file,
absent command — is absorbed inside the probe as presence false; `getUrl`
reports any such transport failure (including every non-200 status) as a
non-nil error, and detect is a total state transformer that never propagates
an error to the orchestrator. -/
theorem claim_C7_failures_absorbed (w : World) :
    (∀ url hdrs, (getUrl w url hdrs).err = none
      ↔ ∃ r, w.http url hdrs = HttpResult.resp r none ∧ r.status = 200)
    ∧ (∀ c : SimpleUrlBasedCloud, (getUrl w c.testUrl []).err.isSome →
      (SimpleUrlBasedCloud.detectEffectiveCloud w c).isMyCloud = false)
    ∧ (∀ c : GCECloud, (getUrl w gceTestUrl gceHeaders).err.isSome →
      (GCECloud.detectEffectiveCloud w c).isMyCloud = false)
    ∧ (∀ c : AzureCloud, w.fileExists azureMarkerPath = false →
      (AzureCloud.detectEffectiveCloud w c).isMyCloud = false)
    ∧ (∀ c : JoyentCloud, w.fileExists joyentCmdPath = false →
      (JoyentCloud.detectEffectiveCloud w c).isMyCloud = false) := by
  refine ⟨getUrl_err_none_iff w, fun c herr => ?_, fun c herr => ?_,
    fun c hf => ?_, fun c hf => ?_⟩
  · simp only [SimpleUrlBasedCloud.detectEffectiveCloud]
    cases he : (getUrl w c.testUrl []).err with
    | none => rw [he] at herr; exact absurd herr (by simp)
    | some m => simp [he]
  · simp only [GCECloud.detectEffectiveCloud]
    cases he : (getUrl w gceTestUrl gceHeaders).err with
    | none => rw [he] at herr; exact absurd herr (by simp)
    | some m => simp [he]
  · simp [AzureCloud.detectEffectiveCloud, hf]
  · simp [JoyentCloud.detectEffectiveCloud, hf]

/-- Witness for C7: in the all-fail world every probe's detection ends with
presence false. -/
theorem claim_C7_witness :
    (SimpleUrlBasedCloud.detectEffectiveCloud wNone
      NewAWSCloud.toSimpleUrlBasedCloud).isMyCloud = false
    ∧ (GCECloud.detectEffectiveCloud wNone NewGCECloud).isMyCloud = false
    ∧ (AzureCloud.detectEffectiveCloud wNone ⟨{ name := "Azure" }⟩).isMyCloud = false
    ∧ (JoyentCloud.detectEffectiveCloud wNone NewJoyentCloud).isMyCloud = false :=
  ⟨(claim_C7_failures_absorbed wNone).2.1 _ (by decide),
   (claim_C7_failures_absorbed wNone).2.2.1 _ (by decide),
   (claim_C7_failures_absorbed wNone).2.2.2.1 _ (by decide),
   (claim_C7_failures_absorbed wNone).2.2.2.2 _ (by decide)⟩

/-- C8: the default getKey inherited from BaseCloud always fails with the
"Cloud does not support keys" error; the Azure probe does not override it, so
its key fetch returns exactly that failure for every requested key, and it
performs no I/O — the result is identical in every world; yet Azure can be
selected as the detected provider, as the Azure-marker world shows. -/
theorem claim_C8_default_key_unsupported (w w' : World) (c : AzureCloud)
    (key : String) :
    BaseCloud.getKey key
      = ((none : Option String), some ("Cloud does not support keys"))
    ∧ Cloud.getKey w key (Cloud.azure c) = some (BaseCloud.getKey key)
    ∧ Cloud.getKey w key (Cloud.azure c) = Cloud.getKey w' key (Cloud.azure c)
    ∧ mainRun wAzure "" = some ⟨["Azure"], 0⟩ :=
  ⟨rfl, rfl, rfl, by decide⟩

/-- Result shape of `getUrl`: a captured body with nil error, or no body with
a non-nil error — never a body together with an error, never neither. -/
theorem getUrl_shape (w : World) (url : String)
    (hdrs : List (String × String)) :
    ((getUrl w url hdrs).body.isSome ∧ (getUrl w url hdrs).err = none)
    ∨ ((getUrl w url hdrs).body = none ∧ (getUrl w url hdrs).err.isSome) := by
  unfold getUrl
  cases w.http url hdrs with
  | netErr m => right; simp
  | resp r readErr =>
    by_cases h200 : r.status = 200
    · cases readErr with
      | none => left; simp [h200]
      | some m => right; simp [h200]
    · right; simp [h200]

/-- Every dispatched getKey result is a Go nil dereference (`none`), a value
with nil error, or no value with a non-nil error; `(nil, nil)` never
occurs. -/
theorem Cloud.getKey_shape (w : World) (key : String) (c : Cloud) :
    Cloud.getKey w key c = none
    ∨ (∃ v, Cloud.getKey w key c = some (some v, none))
    ∨ (∃ v e, Cloud.getKey w key c = some (v, some e)) := by
  have simple : ∀ s : SimpleUrlBasedCloud,
      (∃ v, SimpleUrlBasedCloud.getKey w s key = (some v, none))
      ∨ (∃ v e, SimpleUrlBasedCloud.getKey w s key = (v, some e)) := by
    intro s
    rcases getUrl_shape w (s.baseUrl ++ key) [] with ⟨hb, he⟩ | ⟨hb, he⟩
    · left
      obtain ⟨v, hv⟩ := Option.isSome_iff_exists.mp hb
      refine ⟨v, ?_⟩
      show ((getUrl w (s.baseUrl ++ key) []).body,
        (getUrl w (s.baseUrl ++ key) []).err) = (some v, none)
      rw [hv, he]
    · right
      obtain ⟨e, hev⟩ := Option.isSome_iff_exists.mp he
      refine ⟨none, e, ?_⟩
      show ((getUrl w (s.baseUrl ++ key) []).body,
        (getUrl w (s.baseUrl ++ key) []).err) = (none, some e)
      rw [hb, hev]
  cases c with
  | aws c =>
    rcases simple c.toSimpleUrlBasedCloud with ⟨v, hv⟩ | ⟨v, e, hve⟩
    · exact Or.inr (Or.inl ⟨v, by simp [Cloud.getKey, hv]⟩)
    · exact Or.inr (Or.inr ⟨v, e, by simp [Cloud.getKey, hve]⟩)
  | digitalOcean c =>
    rcases simple c.toSimpleUrlBasedCloud with ⟨v, hv⟩ | ⟨v, e, hve⟩
    · exact Or.inr (Or.inl ⟨v, by simp [Cloud.getKey, hv]⟩)
    · exact Or.inr (Or.inr ⟨v, e, by simp [Cloud.getKey, hve]⟩)
  | gce c =>
    have h : GCECloud.getKey w key
        = ((getUrl w ("http://metadata.google.internal/computeMetadata/v1/" ++ key) gceHeaders).body,
           (getUrl w ("http://metadata.google.internal/computeMetadata/v1/" ++ key) gceHeaders).err) := rfl
    rcases getUrl_shape w ("http://metadata.google.internal/computeMetadata/v1/" ++ key) gceHeaders with ⟨hb, he⟩ | ⟨hb, he⟩
    · obtain ⟨v, hv⟩ := Option.isSome_iff_exists.mp hb
      exact Or.inr (Or.inl ⟨v, by simp [Cloud.getKey, h, hv, he]⟩)
    · obtain ⟨e, hev⟩ := Option.isSome_iff_exists.mp he
      exact Or.inr (Or.inr ⟨none, e, by simp [Cloud.getKey, h, hb, hev]⟩)
  | azure c =>
    exact Or.inr (Or.inr ⟨none, "Cloud does not support keys", rfl⟩)
  | joyent c =>
    cases hr : w.cmdRun joyentCmdPath key with
    | error e =>
      exact Or.inr (Or.inr ⟨none, e, by simp [Cloud.getKey, JoyentCloud.getKey, hr]⟩)
    | ok out =>
      exact Or.inr (Or.inl ⟨out, by simp [Cloud.getKey, JoyentCloud.getKey, hr]⟩)
  | openstack c =>
    cases hm : c.metadata with
    | none => exact Or.inl (by simp [Cloud.getKey, OpenStackCloud.getKey, hm])
    | some body =>
      by_cases hv : mapGet ((parseFlatJson body).getD []) key = ""
      · exact Or.inr (Or.inr ⟨none, "No such key " ++ key,
          by simp [Cloud.getKey, OpenStackCloud.getKey, hm, hv]⟩)
      · exact Or.inr (Or.inl ⟨mapGet ((parseFlatJson body).getD []) key,
          by simp [Cloud.getKey, OpenStackCloud.getKey, hm, hv]⟩)

/-- A probe that came out of the detection phase reporting presence never
returns the nil-dereference outcome from getKey: only the OpenStack override
dereferences the cached metadata pointer, and detection capture makes that
pointer non-nil whenever presence is true. -/
theorem Cloud.getKey_detect_ne_none (w : World) (key : String) (c0 : Cloud)
    (heff : (Cloud.detect w c0).isEffectiveCloud = true) :
    Cloud.getKey w key (Cloud.detect w c0) ≠ none := by
  cases c0 with
  | aws c => simp [Cloud.detect, Cloud.getKey]
  | gce c => simp [Cloud.detect, Cloud.getKey]
  | azure c => simp [Cloud.detect, Cloud.getKey]
  | digitalOcean c => simp [Cloud.detect, Cloud.getKey]
  | joyent c => simp [Cloud.detect, Cloud.getKey]
  | openstack c =>
    simp only [Cloud.detect, Cloud.getKey, OpenStackCloud.getKey]
    have hmy : (SimpleUrlBasedCloud.detectEffectiveCloud w
        c.toSimpleUrlBasedCloud).isMyCloud = true := by
      simpa [Cloud.isEffectiveCloud, Cloud.base, Cloud.detect] using heff
    have hb : ((SimpleUrlBasedCloud.detectEffectiveCloud w
        c.toSimpleUrlBasedCloud).metadata).isSome := by
      have hbs := getUrl_body_isSome w c.toSimpleUrlBasedCloud.testUrl []
      simp only [SimpleUrlBasedCloud.detectEffectiveCloud] at hmy ⊢
      rw [hbs]
      exact hmy
    cases hm : (SimpleUrlBasedCloud.detectEffectiveCloud w
        c.toSimpleUrlBasedCloud).metadata with
    | none => rw [hm] at hb; exact absurd hb (by simp)
    | some body =>
      by_cases hv : mapGet ((parseFlatJson body).getD []) key = ""
      · simp [hv]
      · simp [hv]

/-- C9: for every URL-based probe, after its detect has run, presence implies
the cached metadata pointer is non-nil (presence is exactly a successful GET
whose body was captured); consequently the program never performs a nil
dereference — `mainRun` returns a result for every world and requested key,
so the OpenStack getKey invoked by the orchestrator on the winning probe
never dereferences nil. -/
theorem claim_C9_no_nil_dereference (w : World) :
    (∀ c : SimpleUrlBasedCloud,
      (SimpleUrlBasedCloud.detectEffectiveCloud w c).isMyCloud = true →
      ((SimpleUrlBasedCloud.detectEffectiveCloud w c).metadata).isSome)
    ∧ (∀ key, (mainRun w key).isSome) := by
  constructor
  · intro c hmy
    have hbs := getUrl_body_isSome w c.testUrl []
    simp only [SimpleUrlBasedCloud.detectEffectiveCloud] at hmy ⊢
    rw [hbs]
    exact hmy
  · intro key
    unfold mainRun mainAfterJoin
    cases hfind : (setupClouds.map (Cloud.detect w)).find? Cloud.isEffectiveCloud with
    | none => simp
    | some cd =>
      by_cases hk : key = ""
      · simp [hk]
      · have heff : cd.isEffectiveCloud = true := List.find?_some hfind
        obtain ⟨c0, _, hc0⟩ :=
          List.mem_map.mp (List.mem_of_find?_eq_some hfind)
        rcases Cloud.getKey_shape w key cd with hn | ⟨v, hv⟩ | ⟨v, e, hve⟩
        · exfalso
          rw [← hc0] at hn heff
          exact Cloud.getKey_detect_ne_none w key c0 heff hn
        · simp [hk, hv]
        · simp [hk, hve]

/-- Witness for C9: in the AWS-only world the detected AWS probe is present
with a captured metadata body, and the program produces a result when a key
is requested. -/
theorem claim_C9_witness :
    ((SimpleUrlBasedCloud.detectEffectiveCloud wAws
        NewAWSCloud.toSimpleUrlBasedCloud).metadata).isSome
    ∧ (mainRun wAws "ami-id").isSome :=
  ⟨(claim_C9_no_nil_dereference wAws).1 NewAWSCloud.toSimpleUrlBasedCloud
      (by decide),
   (claim_C9_no_nil_dereference wAws).2 "ami-id"⟩
